import Mathlib

/-!
# Verification of the valet-parking core: vehicle lifecycle, valet dispatch, zone slots

A shallow embedding of the domain entities and use cases of the valet-parking
backend (`src/domain/entities/Vehicle.ts`, `ParkingZone.ts`,
`src/domain/value-objects/VehicleState.ts`, `ValetStatus.ts`,
`src/application/use-cases/valet/AssignValetRoundRobin.ts`, and the
`CreateVehicleEntryUseCase`), together with theorems about the lifecycle
state machine, valet round-robin fairness, slot accounting, token and phone
formats, and duplicate-entry rejection.

JavaScript `Date` values are embedded as natural numbers (milliseconds since
epoch, or minutes since midnight where the source computes
`getHours()*60 + getMinutes()`).  Methods that mutate `this` and may `throw`
are embedded as functions returning the post-call object together with an
optional error: the returned object reflects exactly the field writes the
source performs before the `throw`, so partial writes are observable.
-/

namespace ValetParking

/-! ## VehicleState.ts -/

/-- The vehicle lifecycle states (`enum VehicleState`). -/
inductive VehicleState where
  | PARKING
  | PARKED
  | WAITING_MARKOUT
  | SCHEDULED
  | RETRIEVAL_ASSIGNED
  | ON_THE_WAY
  | DELIVERED
  | CLOSED
deriving DecidableEq, Repr

open VehicleState

/-- Source `VehicleStateMachine.transitions`: the allowed-successor table. -/
def stateTransitions : VehicleState → List VehicleState
  | PARKING => [PARKED]
  | PARKED => [SCHEDULED, WAITING_MARKOUT]
  | WAITING_MARKOUT => [SCHEDULED]
  | SCHEDULED => [RETRIEVAL_ASSIGNED]
  | RETRIEVAL_ASSIGNED => [ON_THE_WAY]
  | ON_THE_WAY => [DELIVERED]
  | DELIVERED => [CLOSED]
  | CLOSED => []

/-- Source `VehicleStateMachine.transition`: returns the next state, or the
`(from, to)` pair of an invalid transition (the thrown error). -/
def stateTransition (currentState nextState : VehicleState) :
    Except (VehicleState × VehicleState) VehicleState :=
  if nextState ∈ stateTransitions currentState then .ok nextState
  else .error (currentState, nextState)

/-- Source `VehicleStateMachine.canBeMarkedOut`. -/
def canBeMarkedOut (state : VehicleState) : Bool :=
  state ∈ [PARKED, WAITING_MARKOUT]

/-- Source `VehicleStateMachine.isReadyForRetrieval`. -/
def isReadyForRetrieval (state : VehicleState) : Bool :=
  state ∈ [SCHEDULED, RETRIEVAL_ASSIGNED]

/-! ## Vehicle.ts -/

/-- The `Vehicle` entity.  `Date` fields are milliseconds since epoch. -/
structure Vehicle where
  id : String
  token : String
  vehicleNumber : String
  customerPhone : String
  zone : String
  slot : String
  state : VehicleState
  customerType : Option String := none
  arrivedAt : Nat := 0
  parkedAt : Option Nat := none
  markoutRequestedAt : Option Nat := none
  scheduledAt : Option Nat := none
  retrievalStartedAt : Option Nat := none
  deliveredAt : Option Nat := none
  closedAt : Option Nat := none
  entryOperatorId : Option String := none
  parkingValetId : Option String := none
  retrievalValetId : Option String := none
  createdAt : Nat := 0
  updatedAt : Nat := 0
deriving DecidableEq, Repr

/-- The errors thrown by `Vehicle`'s business-logic methods. -/
inductive VehicleError where
  | cannotMarkParked (state : VehicleState)
  | cannotRequestMarkOut (state : VehicleState)
  | invalidMarkOutTime
  | cannotAssignRetrievalValet (state : VehicleState)
  | cannotStartRetrieval (state : VehicleState)
  | retrievalTimeNotReached
  | cannotMarkDelivered (state : VehicleState)
  | cannotClose (state : VehicleState)
  | invalidTransition (fromState toState : VehicleState)
deriving DecidableEq, Repr

namespace Vehicle

/-- Source `Vehicle.canBeMarkedParked`. -/
def canBeMarkedParked (v : Vehicle) : Bool :=
  v.state = PARKING && v.parkingValetId.isSome

/-- Source `Vehicle.markAsParked`; `now` is the value of `new Date()` during the call. -/
def markAsParked (now : Nat) (v : Vehicle) : Vehicle × Option VehicleError :=
  if ¬ v.canBeMarkedParked then (v, some (.cannotMarkParked v.state))
  else
    match stateTransition v.state PARKED with
    | .error e => (v, some (.invalidTransition e.1 e.2))
    | .ok s => ({ v with state := s, parkedAt := some now, updatedAt := now }, none)

/-- Source `Vehicle.canRequestMarkOut`. -/
def canRequestMarkOut (v : Vehicle) : Bool :=
  canBeMarkedOut v.state

/-- Source `Vehicle.requestMarkOut`: the customer picks 5, 7 or 10 minutes;
`scheduledAt` is set to `now + selectedMinutes * 60 * 1000`. -/
def requestMarkOut (now selectedMinutes : Nat) (v : Vehicle) :
    Vehicle × Option VehicleError :=
  if ¬ v.canRequestMarkOut then (v, some (.cannotRequestMarkOut v.state))
  else if ¬ (selectedMinutes ∈ [5, 7, 10]) then (v, some .invalidMarkOutTime)
  else
    match stateTransition v.state SCHEDULED with
    | .error e => (v, some (.invalidTransition e.1 e.2))
    | .ok s =>
      ({ v with
          state := s,
          markoutRequestedAt := some now,
          scheduledAt := some (now + selectedMinutes * 60 * 1000),
          updatedAt := now }, none)

/-- Source `Vehicle.assignRetrievalValet`.  Note the source sets
`this.retrievalValetId = valetId` *before* calling
`VehicleStateMachine.transition`, so a failing transition leaves the new
valet id behind. -/
def assignRetrievalValet (now : Nat) (valetId : String) (v : Vehicle) :
    Vehicle × Option VehicleError :=
  if ¬ isReadyForRetrieval v.state then (v, some (.cannotAssignRetrievalValet v.state))
  else
    let v1 := { v with retrievalValetId := some valetId }
    match stateTransition v1.state RETRIEVAL_ASSIGNED with
    | .error e => (v1, some (.invalidTransition e.1 e.2))
    | .ok s => ({ v1 with state := s, updatedAt := now }, none)

/-- Source `Vehicle.isRetrievalTimeReached`: `new Date() >= this.scheduledAt`,
false when `scheduledAt` is unset. -/
def isRetrievalTimeReached (now : Nat) (v : Vehicle) : Bool :=
  match v.scheduledAt with
  | none => false
  | some t => t ≤ now

/-- Source `Vehicle.startRetrieval`: state guard, then time-gate, then transition
to `ON_THE_WAY`. -/
def startRetrieval (now : Nat) (v : Vehicle) : Vehicle × Option VehicleError :=
  if ¬ isReadyForRetrieval v.state then (v, some (.cannotStartRetrieval v.state))
  else if ¬ v.isRetrievalTimeReached now then (v, some .retrievalTimeNotReached)
  else
    match stateTransition v.state ON_THE_WAY with
    | .error e => (v, some (.invalidTransition e.1 e.2))
    | .ok s => ({ v with state := s, retrievalStartedAt := some now, updatedAt := now }, none)

/-- Source `Vehicle.markAsDelivered`. -/
def markAsDelivered (now : Nat) (v : Vehicle) : Vehicle × Option VehicleError :=
  if v.state ≠ ON_THE_WAY then (v, some (.cannotMarkDelivered v.state))
  else
    match stateTransition v.state DELIVERED with
    | .error e => (v, some (.invalidTransition e.1 e.2))
    | .ok s => ({ v with state := s, deliveredAt := some now, updatedAt := now }, none)

/-- Source `Vehicle.close`. -/
def close (now : Nat) (v : Vehicle) : Vehicle × Option VehicleError :=
  if v.state ≠ DELIVERED then (v, some (.cannotClose v.state))
  else
    match stateTransition v.state CLOSED with
    | .error e => (v, some (.invalidTransition e.1 e.2))
    | .ok s => ({ v with state := s, closedAt := some now, updatedAt := now }, none)

end Vehicle

/-! ## ParkingZone.ts (merged with the richer variant used by the repository,
which adds `zoneName`, `zoneDescription` and `priority`) -/

/-- The `ParkingZone` entity.  Slot counts are integers, as JavaScript
numbers: the repository's unguarded decrement could drive them negative. -/
structure ParkingZone where
  id : String
  zoneCode : String
  totalSlots : Int
  availableSlots : Int
  isActive : Bool
  zoneName : Option String := none
  zoneDescription : Option String := none
  priority : Int := 999
deriving DecidableEq, Repr

/-- Errors thrown by `ParkingZone`'s methods. -/
inductive ZoneError where
  | noSlotsAvailable
  | allSlotsAlreadyFree
deriving DecidableEq, Repr

namespace ParkingZone

/-- Source `ParkingZone.hasAvailability`. -/
def hasAvailability (z : ParkingZone) : Bool :=
  0 < z.availableSlots && z.isActive

/-- Source `ParkingZone.occupySlot`: throws when no slot is available, otherwise
decrements `availableSlots`. -/
def occupySlot (z : ParkingZone) : Except ZoneError ParkingZone :=
  if z.availableSlots ≤ 0 then .error .noSlotsAvailable
  else .ok { z with availableSlots := z.availableSlots - 1 }

/-- Source `ParkingZone.releaseSlot`: throws when already at capacity, otherwise
increments `availableSlots`. -/
def releaseSlot (z : ParkingZone) : Except ZoneError ParkingZone :=
  if z.totalSlots ≤ z.availableSlots then .error .allSlotsAlreadyFree
  else .ok { z with availableSlots := z.availableSlots + 1 }

end ParkingZone

/-- One step of a slot-accounting history: an occupy or a release call. -/
inductive SlotOp where
  | occupy
  | release
deriving DecidableEq, Repr

/-- Apply a single slot operation: a failing call throws before any
mutation, so the zone is unchanged. -/
def applySlotOp (z : ParkingZone) : SlotOp → ParkingZone
  | .occupy => (z.occupySlot).toOption.getD z
  | .release => (z.releaseSlot).toOption.getD z

/-- Run a sequence of occupy/release calls, each failing call leaving the
zone as it was. -/
def runSlotOps (z : ParkingZone) (ops : List SlotOp) : ParkingZone :=
  ops.foldl applySlotOp z

/-! ## ValetStatus.ts -/

/-- Source `enum ValetStatus`. -/
inductive ValetStatus where
  | FREE
  | BUSY
  | BREAK
  | OFF_DUTY
deriving DecidableEq, Repr

/-- Source `ValetStatusRules.canBeAssigned`: only `FREE` valets may be assigned. -/
def statusCanBeAssigned (status : ValetStatus) : Bool :=
  status = ValetStatus.FREE

/-- Source `ValetStatusRules.getStatusAfterAssignment`. -/
def statusAfterAssignment : ValetStatus := ValetStatus.BUSY

/-- Source `ValetStatusRules.getStatusAfterCompletion`. -/
def statusAfterCompletion : ValetStatus := ValetStatus.FREE

/-! ## Valet entity (second class in ParkingZone.ts) -/

/-- The `Valet` entity.  `shiftStart`/`shiftEnd` are stored as minutes since
midnight (the source computes `getHours() * 60 + getMinutes()` on the stored
`Date`s); `updatedAt` is milliseconds since epoch. -/
structure Valet where
  id : String
  name : String
  phone : String
  status : ValetStatus
  assignmentSequence : Nat := 0
  todayCount : Nat := 0
  totalCount : Nat := 0
  employeeId : Option String := none
  shiftStart : Option Nat := none
  shiftEnd : Option Nat := none
  isActive : Bool := true
  updatedAt : Nat := 0
deriving DecidableEq, Repr

/-- Errors thrown by `Valet`'s methods. -/
inductive ValetError where
  | cannotAssign (status : ValetStatus)
  | cannotComplete (status : ValetStatus)
  | busyCannotTakeBreak
  | notOnBreak (status : ValetStatus)
  | busyCannotGoOffDuty
  | notOffDuty (status : ValetStatus)
deriving DecidableEq, Repr

namespace Valet

/-- Source `Valet.isInShift`: no shift window means no restriction; overnight
windows wrap past midnight.  `nowMin` is the current time as minutes since
midnight. -/
def isInShift (nowMin : Nat) (v : Valet) : Bool :=
  match v.shiftStart, v.shiftEnd with
  | some s, some e =>
    if e < s then s ≤ nowMin || nowMin ≤ e
    else s ≤ nowMin && nowMin ≤ e
  | _, _ => true

/-- Source `Valet.canBeAssigned`: active, `FREE`, and inside the shift window. -/
def canBeAssigned (nowMin : Nat) (v : Valet) : Bool :=
  v.isActive && statusCanBeAssigned v.status && v.isInShift nowMin

/-- Source `Valet.assignTask`: sets `BUSY` and increments all three counters. -/
def assignTask (nowMin t : Nat) (v : Valet) : Valet × Option ValetError :=
  if ¬ v.canBeAssigned nowMin then (v, some (.cannotAssign v.status))
  else
    ({ v with
        status := statusAfterAssignment,
        assignmentSequence := v.assignmentSequence + 1,
        todayCount := v.todayCount + 1,
        totalCount := v.totalCount + 1,
        updatedAt := t }, none)

/-- Source `Valet.completeTask`: `BUSY → FREE`. -/
def completeTask (t : Nat) (v : Valet) : Valet × Option ValetError :=
  if v.status ≠ ValetStatus.BUSY then (v, some (.cannotComplete v.status))
  else ({ v with status := statusAfterCompletion, updatedAt := t }, none)

/-- Source `Valet.takeBreak`: refused while `BUSY`. -/
def takeBreak (t : Nat) (v : Valet) : Valet × Option ValetError :=
  if v.status = ValetStatus.BUSY then (v, some .busyCannotTakeBreak)
  else ({ v with status := ValetStatus.BREAK, updatedAt := t }, none)

/-- Source `Valet.returnFromBreak`. -/
def returnFromBreak (t : Nat) (v : Valet) : Valet × Option ValetError :=
  if v.status ≠ ValetStatus.BREAK then (v, some (.notOnBreak v.status))
  else ({ v with status := ValetStatus.FREE, updatedAt := t }, none)

/-- Source `Valet.goOffDuty`: refused while `BUSY`. -/
def goOffDuty (t : Nat) (v : Valet) : Valet × Option ValetError :=
  if v.status = ValetStatus.BUSY then (v, some .busyCannotGoOffDuty)
  else ({ v with status := ValetStatus.OFF_DUTY, updatedAt := t }, none)

/-- Source `Valet.startDuty`. -/
def startDuty (t : Nat) (v : Valet) : Valet × Option ValetError :=
  if v.status ≠ ValetStatus.OFF_DUTY then (v, some (.notOffDuty v.status))
  else ({ v with status := ValetStatus.FREE, updatedAt := t }, none)

/-- Source `Valet.resetDailyCounters`: zeroes `assignmentSequence` and
`todayCount`, leaving `status` and `totalCount` alone. -/
def resetDailyCounters (t : Nat) (v : Valet) : Valet × Option ValetError :=
  ({ v with assignmentSequence := 0, todayCount := 0, updatedAt := t }, none)

end Valet

/-- A single call on a `Valet`, used to quantify over all entity methods. -/
inductive ValetOp where
  | assign (nowMin t : Nat)
  | complete (t : Nat)
  | takeBreak (t : Nat)
  | returnFromBreak (t : Nat)
  | goOffDuty (t : Nat)
  | startDuty (t : Nat)
  | resetDailyCounters (t : Nat)
deriving DecidableEq, Repr

/-- Dispatch a `ValetOp` to the corresponding entity method. -/
def applyValetOp (v : Valet) : ValetOp → Valet × Option ValetError
  | .assign nowMin t => v.assignTask nowMin t
  | .complete t => v.completeTask t
  | .takeBreak t => v.takeBreak t
  | .returnFromBreak t => v.returnFromBreak t
  | .goOffDuty t => v.goOffDuty t
  | .startDuty t => v.startDuty t
  | .resetDailyCounters t => v.resetDailyCounters t

/-! ## AssignValetRoundRobin.ts

`execute` is embedded as a pure function over the list of active valets the
repository would return.  `Array.prototype.sort` is stable (ES2019), so it
is embedded by the stable `List.mergeSort`; the numeric comparator
`(a, b) => a.x - b.x` orders by `a.x ≤ b.x`.  The repository `update` call
persists the mutated valet object, embedded as an id-keyed replacement in
the list. -/

/-- Comparator `(a, b) => a.assignmentSequence - b.assignmentSequence`. -/
def seqLe (a b : Valet) : Bool :=
  a.assignmentSequence ≤ b.assignmentSequence

/-- Comparator `(a, b) => a.todayCount - b.todayCount`. -/
def todayLe (a b : Valet) : Bool :=
  a.todayCount ≤ b.todayCount

/-- Steps 3–4 of `AssignValetRoundRobinUseCase.execute`: sort the available
valets by `assignmentSequence`, keep the lowest-sequence candidates, order
those by `todayCount` when there is more than one, and take the first. -/
def selectValet (available : List Valet) : Option Valet :=
  let sorted := available.mergeSort seqLe
  match sorted with
  | [] => none
  | lowest :: _ =>
    let candidateValets :=
      sorted.filter (fun v => v.assignmentSequence == lowest.assignmentSequence)
    let finalCandidates :=
      if 1 < candidateValets.length then candidateValets.mergeSort todayLe
      else candidateValets
    finalCandidates.head?

/-- Failures of `AssignValetRoundRobinUseCase.execute`. -/
inductive AssignError where
  | noActiveValets
  | noAvailableValets
deriving DecidableEq, Repr

/-- Source `AssignValetRoundRobinUseCase.execute` on the list of active valets:
returns the assigned valet and the updated valet list, or an error with the
list untouched (every throw happens before the repository write). -/
def executeAssign (nowMin t : Nat) (allValets : List Valet) :
    Except AssignError Valet × List Valet :=
  if allValets.isEmpty then (.error .noActiveValets, allValets)
  else
    let availableValets := allValets.filter (Valet.canBeAssigned nowMin)
    if availableValets.isEmpty then (.error .noAvailableValets, allValets)
    else
      match selectValet availableValets with
      | none => (.error .noAvailableValets, allValets)
      | some selected =>
        match selected.assignTask nowMin t with
        | (_, some _) => (.error .noAvailableValets, allValets)
        | (assigned, none) =>
          (.ok assigned,
           allValets.map (fun w => if w.id == selected.id then assigned else w))

/-- One round of the C6 scenario: one `execute` call, then the assigned
valet is released through `Valet.completeTask` before the next call. -/
def assignCompleteRound (nowMin t : Nat) (valets : List Valet) :
    Option (List Valet) :=
  match executeAssign nowMin t valets with
  | (.error _, _) => none
  | (.ok assigned, valets1) =>
    match assigned.completeTask t with
    | (_, some _) => none
    | (released, none) =>
      some (valets1.map (fun w => if w.id == released.id then released else w))

/-- Run `K` assign/complete rounds; `times` gives each round's clock as a
`(minutes-of-day, milliseconds)` pair. -/
def runRounds (times : List (Nat × Nat)) (valets : List Valet) :
    Option (List Valet) :=
  match times with
  | [] => some valets
  | (nowMin, t) :: rest =>
    match assignCompleteRound nowMin t valets with
    | none => none
    | some valets1 => runRounds rest valets1

/-! ## CreateVehicleEntryUseCase (string helpers)

JavaScript string methods are embedded through `String.data`
(`List Char`): `replace(/\D/g, '')` keeps the digit characters,
`replace(/\s+/g, '')` drops the whitespace characters, `trim()` strips
whitespace at both ends, `slice` and `padStart` are list take/drop and
left-padding. -/

/-- Source `phone.replace(/\D/g, '')`: the digit characters of the string. -/
def jsDigits (s : String) : String :=
  ⟨s.data.filter Char.isDigit⟩

/-- Source `s.trim()`. -/
def jsTrim (s : String) : String :=
  ⟨((s.data.dropWhile Char.isWhitespace).reverse.dropWhile Char.isWhitespace).reverse⟩

/-- The regex test `/^[6-9]\d{9}$/.test(s)`. -/
def phoneRegexTest (s : String) : Bool :=
  match s.data with
  | [] => false
  | c :: rest => ('6' ≤ c && c ≤ '9') && rest.length == 9 && rest.all Char.isDigit

/-- Source `CreateVehicleEntryUseCase.normalizeVehicleNumber`: remove whitespace,
uppercase, trim. -/
def normalizeVehicleNumber (vehicleNumber : String) : String :=
  jsTrim ⟨(vehicleNumber.data.filter (fun c => ¬ c.isWhitespace)).map Char.toUpper⟩

/-- Source `CreateVehicleEntryUseCase.normalizePhoneNumber`: keep the digits, then
drop a leading `91` country code when the result has 12 digits. -/
def normalizePhoneNumber (phone : String) : String :=
  let cleaned := (jsDigits phone).data
  if cleaned.take 2 = ['9', '1'] ∧ cleaned.length = 12 then ⟨cleaned.drop 2⟩
  else ⟨cleaned⟩

/-- Source `CreateVehicleEntryUseCase.generateToken`: last 6 digits of
`Date.now()`, then `Math.floor(Math.random() * 1000)` left-padded to 3
digits, prefixed with `VLT-` and truncated to 12 characters.  `nowMs` is
`Date.now()`; `rand % 1000` stands for the `Math.random()` draw. -/
def generateToken (nowMs rand : Nat) : String :=
  let s := (Nat.repr nowMs).data
  let timeDigits := s.drop (s.length - 6)
  let r := (Nat.repr (rand % 1000)).data
  let randomDigits := List.replicate (3 - r.length) '0' ++ r
  ⟨("VLT-".data ++ timeDigits ++ randomDigits).take 12⟩

/-- Source `CreateVehicleEntryUseCase.allocateSlot`: `Math.floor(Math.random() *
100) + 1` as a string; the zone code and the set of occupied slots are not
consulted.  `rand % 100` stands for the `Math.random()` draw. -/
def allocateSlot (zoneCode : String) (rand : Nat) : String :=
  Nat.repr (rand % 100 + 1)

/-! ## CreateVehicleEntryUseCase (pipeline) -/

/-- Input DTO of `CreateVehicleEntryUseCase.execute`. -/
structure CreateVehicleEntryDTO where
  vehicleNumber : String
  customerPhone : String
  customerType : Option String := none
  entryOperatorId : String
deriving DecidableEq, Repr

/-- Errors raised by `CreateVehicleEntryUseCase.execute` before any write. -/
inductive EntryError where
  | vehicleNumberRequired
  | customerPhoneRequired
  | invalidPhoneNumber
  | entryOperatorRequired
  | duplicateEntry (vehicleNumber token : String) (state : VehicleState)
  | noParkingSlots
  | valetAssignment (e : AssignError)
deriving DecidableEq, Repr

/-- Source `CreateVehicleEntryUseCase.validateInput`. -/
def validateInput (dto : CreateVehicleEntryDTO) : Option EntryError :=
  if (jsTrim dto.vehicleNumber).data.length = 0 then some .vehicleNumberRequired
  else if (jsTrim dto.customerPhone).data.length = 0 then some .customerPhoneRequired
  else if ¬ phoneRegexTest (jsDigits dto.customerPhone) then some .invalidPhoneNumber
  else if dto.entryOperatorId = "" then some .entryOperatorRequired
  else none

/-- Source `VehicleRepository.findActiveByVehicleNumber`: first stored record with
this plate whose state is neither `DELIVERED` nor `CLOSED`. -/
def findActiveByVehicleNumber (vehicles : List Vehicle) (vehicleNumber : String) :
    Option Vehicle :=
  vehicles.find? (fun v =>
    v.vehicleNumber == vehicleNumber &&
    ¬ (v.state = DELIVERED ∨ v.state = CLOSED))

/-- Priority comparator for `ParkingZoneRepository.findAvailableZone`'s
`orderBy priority asc`. -/
def prioLe (a b : ParkingZone) : Bool :=
  a.priority ≤ b.priority

/-- Source `ParkingZoneRepository.findAvailableZone`: first zone in ascending
priority order with `available_slots > 0` and `is_active`. -/
def findAvailableZone (zones : List ParkingZone) : Option ParkingZone :=
  (zones.mergeSort prioLe).find? (fun z => 0 < z.availableSlots && z.isActive)

/-- Source `ParkingZoneRepository.decrementAvailableSlots`: an unguarded
`decrement: 1` on the row with this id. -/
def decrementAvailableSlots (zones : List ParkingZone) (id : String) :
    List ParkingZone :=
  zones.map (fun z =>
    if z.id == id then { z with availableSlots := z.availableSlots - 1 } else z)

/-- The persistent state `CreateVehicleEntryUseCase` reads and writes. -/
structure SystemState where
  vehicles : List Vehicle
  zones : List ParkingZone
  valets : List Valet
deriving DecidableEq, Repr

/-- Source `CreateVehicleEntryUseCase.execute`: validation, duplicate check, zone
lookup, valet round-robin assignment, token and slot generation, vehicle
creation and zone decrement, in source order.  `nowMs`/`nowMin` are the
call's clock, `uuid` the generated vehicle id, `tokRand`/`slotRand` the two
random draws.  Every error is thrown before the first write, except that
the valet assignment itself persists inside `executeAssign`. -/
def createEntry (nowMs nowMin tokRand slotRand : Nat) (uuid : String)
    (dto : CreateVehicleEntryDTO) (st : SystemState) :
    Except EntryError Vehicle × SystemState :=
  match validateInput dto with
  | some e => (.error e, st)
  | none =>
    let normalized := normalizeVehicleNumber dto.vehicleNumber
    match findActiveByVehicleNumber st.vehicles normalized with
    | some existing =>
      (.error (.duplicateEntry normalized existing.token existing.state), st)
    | none =>
      match findAvailableZone st.zones with
      | none => (.error .noParkingSlots, st)
      | some zone =>
        match executeAssign nowMin nowMs st.valets with
        | (.error e, _) => (.error (.valetAssignment e), st)
        | (.ok valet, valets1) =>
          let token := generateToken nowMs tokRand
          let slot := allocateSlot zone.zoneCode slotRand
          let vehicle : Vehicle :=
            { id := uuid,
              token := token,
              vehicleNumber := normalized,
              customerPhone := normalizePhoneNumber dto.customerPhone,
              zone := zone.zoneCode,
              slot := slot,
              state := PARKING,
              customerType := dto.customerType,
              arrivedAt := nowMs,
              entryOperatorId := some dto.entryOperatorId,
              parkingValetId := some valet.id,
              createdAt := nowMs,
              updatedAt := nowMs }
          (.ok vehicle,
           { vehicles := st.vehicles ++ [vehicle],
             zones := decrementAvailableSlots st.zones zone.id,
             valets := valets1 })

/-! ## Derived definitions used by the theorems -/

/-- The result of a successful `Valet.assignTask` at time `t`. -/
def assignedOf (t : Nat) (sel : Valet) : Valet :=
  { sel with
      status := ValetStatus.BUSY,
      assignmentSequence := sel.assignmentSequence + 1,
      todayCount := sel.todayCount + 1,
      totalCount := sel.totalCount + 1,
      updatedAt := t }

/-- The result of assigning a valet and then completing the task at time
`t`: counters bumped, back to `FREE`. -/
def roundResultOf (t : Nat) (sel : Valet) : Valet :=
  { assignedOf t sel with status := ValetStatus.FREE }

/-- The fields of a valet that no dispatch operation ever writes:
id, shift window and employment flag. -/
def staticPart (v : Valet) : String × Option Nat × Option Nat × Bool :=
  (v.id, v.shiftStart, v.shiftEnd, v.isActive)

/-! ## Concrete instances used by counterexamples and witnesses -/

/-- A vehicle sitting in `SCHEDULED` whose retrieval time (100) has been set. -/
def schedVehicle : Vehicle :=
  { id := "veh-1", token := "VLT-00000001", vehicleNumber := "KL07AB1234",
    customerPhone := "9876543210", zone := "A", slot := "12",
    state := SCHEDULED, scheduledAt := some 100, retrievalValetId := none }

/-- The same vehicle after a retrieval valet has been assigned. -/
def assignedVehicle : Vehicle :=
  { schedVehicle with state := RETRIEVAL_ASSIGNED, retrievalValetId := some "valet-1" }

/-- A freshly onboarded `FREE` valet with the given counters. -/
def freeValet (i : String) (seqStart todayStart : Nat) : Valet :=
  { id := i, name := i, phone := i, status := ValetStatus.FREE,
    assignmentSequence := seqStart, todayCount := todayStart }

/-- A two-slot active zone. -/
def zoneA : ParkingZone :=
  { id := "z-A", zoneCode := "A", totalSlots := 2, availableSlots := 2,
    isActive := true, priority := 1 }

/-- Fresh system state: one empty two-slot zone, two free valets. -/
def entryState0 : SystemState :=
  { vehicles := [], zones := [zoneA],
    valets := [freeValet "valet-1" 0 0, freeValet "valet-2" 0 0] }

/-- First walk-up entry. -/
def dtoA : CreateVehicleEntryDTO :=
  { vehicleNumber := "KL07AB1234", customerPhone := "9876543210",
    entryOperatorId := "op-1" }

/-- Second walk-up entry, a different plate and phone. -/
def dtoB : CreateVehicleEntryDTO :=
  { vehicleNumber := "KL07AB5678", customerPhone := "9876543211",
    entryOperatorId := "op-1" }

/-- An entry whose phone carries the `91` country code. -/
def dtoPrefixedPhone : CreateVehicleEntryDTO :=
  { vehicleNumber := "KL07AB1234", customerPhone := "919876543210",
    entryOperatorId := "op-1" }

/-- Run the first entry; the slot random draw is 41. -/
def entryStep1 : Except EntryError Vehicle × SystemState :=
  createEntry 1700000000000 600 123 41 "veh-u1" dtoA entryState0

/-- Run the second entry on the resulting state; the slot random draw is
again 41. -/
def entryStep2 : Except EntryError Vehicle × SystemState :=
  createEntry 1700000000500 600 124 41 "veh-u2" dtoB entryStep1.2

/-- An already-parked record for plate `KL07AB1234`. -/
def parkedVehicle : Vehicle :=
  { id := "veh-0", token := "VLT-00000009", vehicleNumber := "KL07AB1234",
    customerPhone := "9876543210", zone := "A", slot := "7", state := PARKED }

/-- A state already holding an active (PARKED) record for plate
`KL07AB1234`. -/
def dupState : SystemState :=
  { vehicles := [parkedVehicle], zones := [zoneA],
    valets := [freeValet "valet-1" 0 0] }

/-- The same state after that record has reached `CLOSED`. -/
def closedState : SystemState :=
  { dupState with
      vehicles := dupState.vehicles.map (fun v => { v with state := CLOSED }) }

/-- A valet in the middle of a task. -/
def busyValet : Valet :=
  { freeValet "valet-9" 3 2 with status := ValetStatus.BUSY }

/-- The token format asserted by the specification: `VLT-` followed by
exactly 9 digit characters. -/
def isVltNineDigitToken (s : String) : Bool :=
  s.data.take 4 = ['V', 'L', 'T', '-'] &&
  (s.data.drop 4).length == 9 &&
  (s.data.drop 4).all Char.isDigit

/-! ## Helper lemmas: stable sort selection -/

theorem mergeSort_head_min {α : Type} (le : α → α → Bool)
    (htrans : ∀ a b c, le a b = true → le b c = true → le a c = true)
    (htotal : ∀ a b, (le a b || le b a) = true)
    (l : List α) (x : α) (rest : List α) (h : l.mergeSort le = x :: rest) :
    x ∈ l ∧ ∀ w ∈ l, le x w = true := by
  have hp := List.sorted_mergeSort htrans htotal l
  rw [h] at hp
  have hmem : x ∈ l := List.mem_mergeSort.mp (h ▸ List.mem_cons_self x rest)
  refine ⟨hmem, ?_⟩
  intro w hw
  have hw2 : w ∈ x :: rest := h ▸ List.mem_mergeSort.mpr hw
  rcases List.mem_cons.mp hw2 with rfl | hwr
  · have hx := htotal w w
    simpa using hx
  · exact (List.pairwise_cons.mp hp).1 w hwr

theorem seqLe_trans (a b c : Valet) (h1 : seqLe a b = true) (h2 : seqLe b c = true) :
    seqLe a c = true := by
  simp only [seqLe, decide_eq_true_eq] at *
  omega

theorem seqLe_total (a b : Valet) : (seqLe a b || seqLe b a) = true := by
  simp only [seqLe]
  rcases Nat.le_total a.assignmentSequence b.assignmentSequence with h | h <;> simp [h]

theorem todayLe_trans (a b c : Valet) (h1 : todayLe a b = true) (h2 : todayLe b c = true) :
    todayLe a c = true := by
  simp only [todayLe, decide_eq_true_eq] at *
  omega

theorem todayLe_total (a b : Valet) : (todayLe a b || todayLe b a) = true := by
  simp only [todayLe]
  rcases Nat.le_total a.todayCount b.todayCount with h | h <;> simp [h]

/-- The valet picked by `selectValet` has the lowest `assignmentSequence`
among the available valets, ties broken by lowest `todayCount`. -/
theorem selectValet_spec (available : List Valet) (hne : available ≠ []) :
    ∃ sel, selectValet available = some sel ∧ sel ∈ available ∧
      (∀ w ∈ available, sel.assignmentSequence ≤ w.assignmentSequence) ∧
      (∀ w ∈ available, w.assignmentSequence = sel.assignmentSequence →
        sel.todayCount ≤ w.todayCount) := by
  cases hs : available.mergeSort seqLe with
  | nil =>
    have : available = [] := by
      have hperm := List.mergeSort_perm available seqLe
      rw [hs] at hperm
      exact hperm.symm.eq_nil
    exact absurd this hne
  | cons lowest srest =>
    have hmin := mergeSort_head_min seqLe seqLe_trans seqLe_total available lowest srest hs
    have hlowmem : lowest ∈ available := hmin.1
    have hlowmin : ∀ w ∈ available, seqLe lowest w = true := hmin.2
    have hself : (lowest.assignmentSequence == lowest.assignmentSequence) = true := by
      simp
    have hcand :
        (lowest :: srest).filter
            (fun v => v.assignmentSequence == lowest.assignmentSequence) =
          lowest :: srest.filter
            (fun v => v.assignmentSequence == lowest.assignmentSequence) :=
      List.filter_cons_of_pos hself
    by_cases hlen :
        1 < ((lowest :: srest).filter
          (fun v => v.assignmentSequence == lowest.assignmentSequence)).length
    · -- more than one lowest-sequence candidate: they are re-sorted by todayCount
      cases hts : ((lowest :: srest).filter
          (fun v => v.assignmentSequence == lowest.assignmentSequence)).mergeSort
            todayLe with
      | nil =>
        exfalso
        have hperm := List.mergeSort_perm ((lowest :: srest).filter
          (fun v => v.assignmentSequence == lowest.assignmentSequence)) todayLe
        rw [hts] at hperm
        have := hperm.symm.eq_nil
        rw [hcand] at this
        exact List.cons_ne_nil _ _ this
      | cons sel trest =>
        have hmin2 := mergeSort_head_min todayLe todayLe_trans todayLe_total _ sel trest hts
        have hselc : sel ∈ (lowest :: srest).filter
            (fun v => v.assignmentSequence == lowest.assignmentSequence) := hmin2.1
        have hseleq : sel.assignmentSequence = lowest.assignmentSequence := by
          have := (List.mem_filter.mp hselc).2
          simpa using this
        have hselsorted : sel ∈ lowest :: srest := (List.mem_filter.mp hselc).1
        have hselmem : sel ∈ available := List.mem_mergeSort.mp (hs ▸ hselsorted)
        refine ⟨sel, ?_, hselmem, ?_, ?_⟩
        · simp only [selectValet, hs]
          rw [if_pos hlen, hts]
          rfl
        · intro w hw
          have := hlowmin w hw
          simp only [seqLe, decide_eq_true_eq] at this
          omega
        · intro w hw hweq
          have hwsorted : w ∈ lowest :: srest := hs ▸ List.mem_mergeSort.mpr hw
          have hwc : w ∈ (lowest :: srest).filter
              (fun v => v.assignmentSequence == lowest.assignmentSequence) := by
            refine List.mem_filter.mpr ⟨hwsorted, ?_⟩
            simp [hweq, hseleq]
          have := hmin2.2 w hwc
          simpa [todayLe] using this
    · -- at most one candidate: it is `lowest` itself
      have hfil : srest.filter
          (fun v => v.assignmentSequence == lowest.assignmentSequence) = [] := by
        rw [hcand] at hlen
        simp only [List.length_cons, not_lt] at hlen
        have : (srest.filter
            (fun v => v.assignmentSequence == lowest.assignmentSequence)).length = 0 := by
          omega
        exact List.eq_nil_of_length_eq_zero this
      refine ⟨lowest, ?_, hlowmem, ?_, ?_⟩
      · simp only [selectValet, hs]
        rw [if_neg hlen, hcand, hfil]
        rfl
      · intro w hw
        have := hlowmin w hw
        simpa [seqLe] using this
      · intro w hw hweq
        have hwsorted : w ∈ lowest :: srest := hs ▸ List.mem_mergeSort.mpr hw
        rcases List.mem_cons.mp hwsorted with rfl | hwr
        · exact le_refl _
        · exfalso
          have : w ∈ srest.filter
              (fun v => v.assignmentSequence == lowest.assignmentSequence) := by
            refine List.mem_filter.mpr ⟨hwr, ?_⟩
            simp [hweq]
          rw [hfil] at this
          exact List.not_mem_nil w this

/-- When some valet is assignable, `executeAssign` succeeds: it picks the
fairest assignable valet, bumps its counters, marks it `BUSY` and writes it
back; nothing else changes. -/
theorem executeAssign_spec (nowMin t : Nat) (vs : List Valet) (v0 : Valet)
    (hv0 : v0 ∈ vs) (hv0a : v0.canBeAssigned nowMin = true) :
    ∃ sel, sel ∈ vs ∧ sel.canBeAssigned nowMin = true ∧
      (∀ w ∈ vs, w.canBeAssigned nowMin = true →
        sel.assignmentSequence ≤ w.assignmentSequence) ∧
      (∀ w ∈ vs, w.canBeAssigned nowMin = true →
        w.assignmentSequence = sel.assignmentSequence →
        sel.todayCount ≤ w.todayCount) ∧
      executeAssign nowMin t vs =
        (.ok (assignedOf t sel),
         vs.map (fun w => if w.id == sel.id then assignedOf t sel else w)) := by
  have hvsne : vs ≠ [] := by
    intro h
    rw [h] at hv0
    exact List.not_mem_nil v0 hv0
  have hfmem : v0 ∈ vs.filter (Valet.canBeAssigned nowMin) :=
    List.mem_filter.mpr ⟨hv0, hv0a⟩
  have hfne : vs.filter (Valet.canBeAssigned nowMin) ≠ [] := by
    intro h
    rw [h] at hfmem
    exact List.not_mem_nil v0 hfmem
  obtain ⟨sel, hselect, hselmem, hselseq, hseltoday⟩ :=
    selectValet_spec (vs.filter (Valet.canBeAssigned nowMin)) hfne
  have hselvs : sel ∈ vs := (List.mem_filter.mp hselmem).1
  have hsela : sel.canBeAssigned nowMin = true := (List.mem_filter.mp hselmem).2
  refine ⟨sel, hselvs, hsela, ?_, ?_, ?_⟩
  · intro w hw hwa
    exact hselseq w (List.mem_filter.mpr ⟨hw, hwa⟩)
  · intro w hw hwa hweq
    exact hseltoday w (List.mem_filter.mpr ⟨hw, hwa⟩) hweq
  · have hempty : vs.isEmpty = false := by
      cases vs with
      | nil => exact absurd rfl hvsne
      | cons a l => rfl
    have hfempty : (vs.filter (Valet.canBeAssigned nowMin)).isEmpty = false := by
      cases hc : vs.filter (Valet.canBeAssigned nowMin) with
      | nil => exact absurd hc hfne
      | cons a l => rfl
    have hat : sel.assignTask nowMin t = (assignedOf t sel, none) := by
      simp only [Valet.assignTask, hsela, not_true_eq_false, if_false]
      rfl
    simp only [executeAssign, hempty, hfempty, hselect, hat]
    rfl

/-- When no valet is assignable, `executeAssign` fails and returns the
valet list untouched. -/
theorem executeAssign_fails (nowMin t : Nat) (vs : List Valet)
    (h : ∀ v ∈ vs, v.canBeAssigned nowMin = false) :
    ∃ e, executeAssign nowMin t vs = (.error e, vs) := by
  cases hvs : vs with
  | nil => exact ⟨.noActiveValets, rfl⟩
  | cons a l =>
    rw [← hvs]
    have hfil : vs.filter (Valet.canBeAssigned nowMin) = [] := by
      rw [List.filter_eq_nil_iff]
      intro v hv
      simp [h v hv]
    have hempty : vs.isEmpty = false := by rw [hvs]; rfl
    refine ⟨.noAvailableValets, ?_⟩
    simp only [executeAssign, hempty, hfil]
    rfl

/-! ## Claim theorems -/

/-- C1 (amended): with `scheduledAt` set, `startRetrieval` succeeds only
from `RETRIEVAL_ASSIGNED` once `now ≥ scheduledAt`, transitioning to
`ON_THE_WAY` and stamping `retrievalStartedAt`; called with
`now < scheduledAt` it fails with the time-gate error and leaves the
vehicle unchanged; from `SCHEDULED` it always fails — even once the time
gate passes — because `SCHEDULED → ON_THE_WAY` is not in the transition
table, again leaving the vehicle unchanged. -/
theorem startRetrieval_time_gate (now ts : Nat) (v : Vehicle)
    (hsched : v.scheduledAt = some ts) :
    (v.state = RETRIEVAL_ASSIGNED → ts ≤ now →
      v.startRetrieval now =
        ({ v with
            state := ON_THE_WAY,
            retrievalStartedAt := some now,
            updatedAt := now }, none)) ∧
    (isReadyForRetrieval v.state = true → now < ts →
      v.startRetrieval now = (v, some .retrievalTimeNotReached)) ∧
    (v.state = SCHEDULED → ts ≤ now →
      v.startRetrieval now = (v, some (.invalidTransition SCHEDULED ON_THE_WAY))) := by
  refine ⟨?_, ?_, ?_⟩
  · intro hstate htime
    simp [Vehicle.startRetrieval, isReadyForRetrieval, hstate,
      Vehicle.isRetrievalTimeReached, hsched, htime, stateTransition, stateTransitions]
  · intro hready htime
    have htime2 : v.isRetrievalTimeReached now = false := by
      simp [Vehicle.isRetrievalTimeReached, hsched]
      omega
    simp [Vehicle.startRetrieval, hready, htime2]
  · intro hstate htime
    simp [Vehicle.startRetrieval, isReadyForRetrieval, hstate,
      Vehicle.isRetrievalTimeReached, hsched, htime, stateTransition, stateTransitions]

/-- C1 witness: a concrete `RETRIEVAL_ASSIGNED` vehicle with
`scheduledAt = 100` retrieved at `now = 200`. -/
theorem startRetrieval_time_gate_witness :
    Vehicle.startRetrieval 200 assignedVehicle =
      ({ assignedVehicle with
          state := ON_THE_WAY,
          retrievalStartedAt := some 200,
          updatedAt := 200 }, none) :=
  (startRetrieval_time_gate 200 100 assignedVehicle (by decide)).1 (by decide) (by decide)

/-- C1 counterexample: a vehicle in `SCHEDULED` with `scheduledAt = 100`
and `now = 200` satisfies the claim's preconditions, yet `startRetrieval`
does not succeed. -/
theorem startRetrieval_from_scheduled_counterexample :
    schedVehicle.state = SCHEDULED ∧ schedVehicle.scheduledAt = some 100 ∧
    100 ≤ 200 ∧
    ¬ ((Vehicle.startRetrieval 200 schedVehicle).2 = none ∧
       (Vehicle.startRetrieval 200 schedVehicle).1.state = ON_THE_WAY) := by
  decide

/-- C2: the code violates the no-partial-write contract.
`assignRetrievalValet` on a vehicle already in `RETRIEVAL_ASSIGNED` throws
an invalid-transition error, but only after overwriting
`retrievalValetId`: the failed call leaves the valet id changed from
`valet-1` to `valet-2`. -/
theorem assignRetrievalValet_partial_write :
    assignedVehicle.retrievalValetId = some "valet-1" ∧
    Vehicle.assignRetrievalValet 300 "valet-2" assignedVehicle =
      ({ assignedVehicle with retrievalValetId := some "valet-2" },
       some (.invalidTransition RETRIEVAL_ASSIGNED RETRIEVAL_ASSIGNED)) := by
  decide

/-- A single occupy/release call preserves the slot bounds and never
touches `totalSlots`. -/
theorem applySlotOp_invariant (z : ParkingZone) (op : SlotOp)
    (h0 : 0 ≤ z.availableSlots) (h1 : z.availableSlots ≤ z.totalSlots) :
    0 ≤ (applySlotOp z op).availableSlots ∧
    (applySlotOp z op).availableSlots ≤ (applySlotOp z op).totalSlots ∧
    (applySlotOp z op).totalSlots = z.totalSlots := by
  cases op with
  | occupy =>
    by_cases h : z.availableSlots ≤ 0
    · simp only [applySlotOp, ParkingZone.occupySlot, if_pos h, Except.toOption,
        Option.getD]
      refine ⟨by omega, by omega, by trivial⟩
    · simp only [applySlotOp, ParkingZone.occupySlot, if_neg h, Except.toOption,
        Option.getD]
      refine ⟨by omega, by omega, by trivial⟩
  | release =>
    by_cases h : z.totalSlots ≤ z.availableSlots
    · simp only [applySlotOp, ParkingZone.releaseSlot, if_pos h, Except.toOption,
        Option.getD]
      refine ⟨by omega, by omega, by trivial⟩
    · simp only [applySlotOp, ParkingZone.releaseSlot, if_neg h, Except.toOption,
        Option.getD]
      refine ⟨by omega, by omega, by trivial⟩

/-- Source `runSlotOps` keeps `availableSlots` within bounds and `totalSlots`
fixed. -/
theorem runSlotOps_invariant (ops : List SlotOp) : ∀ z : ParkingZone,
    0 ≤ z.availableSlots → z.availableSlots ≤ z.totalSlots →
    0 ≤ (runSlotOps z ops).availableSlots ∧
    (runSlotOps z ops).availableSlots ≤ (runSlotOps z ops).totalSlots ∧
    (runSlotOps z ops).totalSlots = z.totalSlots := by
  induction ops with
  | nil => exact fun z h0 h1 => ⟨h0, h1, rfl⟩
  | cons op rest ih =>
    intro z h0 h1
    have hstep := applySlotOp_invariant z op h0 h1
    have hrest := ih (applySlotOp z op) hstep.1 hstep.2.1
    exact ⟨hrest.1, hrest.2.1, hrest.2.2.trans hstep.2.2⟩

/-- C4: slot accounting.  Starting from a zone satisfying the data-model
invariant, every sequence of occupy/release calls keeps `availableSlots`
within `[0, totalSlots]`; occupying at 0 available always throws with no
change, and releasing at capacity always throws the over-release error
with no change. -/
theorem slot_accounting (z : ParkingZone) (ops : List SlotOp)
    (h0 : 0 ≤ z.availableSlots) (h1 : z.availableSlots ≤ z.totalSlots) :
    (0 ≤ (runSlotOps z ops).availableSlots ∧
     (runSlotOps z ops).availableSlots ≤ z.totalSlots) ∧
    (z.availableSlots = 0 → z.occupySlot = .error .noSlotsAvailable) ∧
    (z.availableSlots = z.totalSlots → z.releaseSlot = .error .allSlotsAlreadyFree) := by
  have h := runSlotOps_invariant ops z h0 h1
  refine ⟨⟨h.1, h.2.2 ▸ h.2.1⟩, ?_, ?_⟩
  · intro hz
    simp [ParkingZone.occupySlot, hz]
  · intro hz
    simp [ParkingZone.releaseSlot, hz]

/-- C4 witness: the two-slot zone `A` run through occupy, occupy, occupy,
release. -/
theorem slot_accounting_witness :
    (0 ≤ (runSlotOps zoneA [SlotOp.occupy, SlotOp.occupy, SlotOp.occupy,
        SlotOp.release]).availableSlots ∧
     (runSlotOps zoneA [SlotOp.occupy, SlotOp.occupy, SlotOp.occupy,
        SlotOp.release]).availableSlots ≤ zoneA.totalSlots) ∧
    (zoneA.availableSlots = 0 → zoneA.occupySlot = .error .noSlotsAvailable) ∧
    (zoneA.availableSlots = zoneA.totalSlots →
      zoneA.releaseSlot = .error .allSlotsAlreadyFree) :=
  slot_accounting zoneA [SlotOp.occupy, SlotOp.occupy, SlotOp.occupy,
    SlotOp.release] (by decide) (by decide)

/-- C10: a `BUSY` valet can only leave `BUSY` through `completeTask`.
`takeBreak` and `goOffDuty` on a busy valet always throw and leave the
valet unchanged, and for every entity method, the status after the call is
still `BUSY` unless the call was `completeTask`, which sets `FREE`. -/
theorem busy_valet_only_completes (v : Valet) (op : ValetOp)
    (hb : v.status = ValetStatus.BUSY) :
    (∀ t, v.takeBreak t = (v, some .busyCannotTakeBreak)) ∧
    (∀ t, v.goOffDuty t = (v, some .busyCannotGoOffDuty)) ∧
    ((applyValetOp v op).1.status = ValetStatus.BUSY ∨
      ∃ t, op = ValetOp.complete t ∧
        applyValetOp v op = ({ v with
          status := ValetStatus.FREE, updatedAt := t }, none)) := by
  refine ⟨?_, ?_, ?_⟩
  · intro t
    simp [Valet.takeBreak, hb]
  · intro t
    simp [Valet.goOffDuty, hb]
  · cases op with
    | assign nowMin t =>
      left
      simp [applyValetOp, Valet.assignTask, Valet.canBeAssigned,
        statusCanBeAssigned, hb]
    | complete t =>
      right
      exact ⟨t, rfl, by simp [applyValetOp, Valet.completeTask, hb,
        statusAfterCompletion]⟩
    | takeBreak t =>
      left
      simp [applyValetOp, Valet.takeBreak, hb]
    | returnFromBreak t =>
      left
      simp [applyValetOp, Valet.returnFromBreak, hb]
    | goOffDuty t =>
      left
      simp [applyValetOp, Valet.goOffDuty, hb]
    | startDuty t =>
      left
      simp [applyValetOp, Valet.startDuty, hb]
    | resetDailyCounters t =>
      left
      simp [applyValetOp, Valet.resetDailyCounters, hb]

/-- C3: when at least one valet is `FREE`, active and in shift, the
round-robin assignment selects among the assignable valets one with the
lowest `assignmentSequence`, ties broken by lowest `todayCount`, increments
its `assignmentSequence`, `todayCount` and `totalCount` by exactly 1, sets
it `BUSY` and writes only that valet back; when no valet is assignable it
fails and the valet list is unmodified. -/
theorem assign_round_robin_fairest (nowMin t : Nat) (vs : List Valet) :
    ((∃ v ∈ vs, v.canBeAssigned nowMin = true) →
      ∃ sel, sel ∈ vs ∧ sel.canBeAssigned nowMin = true ∧
        (∀ w ∈ vs, w.canBeAssigned nowMin = true →
          sel.assignmentSequence ≤ w.assignmentSequence) ∧
        (∀ w ∈ vs, w.canBeAssigned nowMin = true →
          w.assignmentSequence = sel.assignmentSequence →
          sel.todayCount ≤ w.todayCount) ∧
        (assignedOf t sel).assignmentSequence = sel.assignmentSequence + 1 ∧
        (assignedOf t sel).todayCount = sel.todayCount + 1 ∧
        (assignedOf t sel).totalCount = sel.totalCount + 1 ∧
        (assignedOf t sel).status = ValetStatus.BUSY ∧
        executeAssign nowMin t vs =
          (.ok (assignedOf t sel),
           vs.map (fun w => if w.id == sel.id then assignedOf t sel else w))) ∧
    ((∀ v ∈ vs, v.canBeAssigned nowMin = false) →
      ∃ e, executeAssign nowMin t vs = (.error e, vs)) := by
  constructor
  · rintro ⟨v0, hv0, hv0a⟩
    obtain ⟨sel, h1, h2, h3, h4, h5⟩ := executeAssign_spec nowMin t vs v0 hv0 hv0a
    exact ⟨sel, h1, h2, h3, h4, rfl, rfl, rfl, rfl, h5⟩
  · exact executeAssign_fails nowMin t vs

/-- C3 witness: three concrete valets — two `FREE` with equal sequence 2
and todayCounts 1 and 0, one `BUSY`. -/
theorem assign_round_robin_fairest_witness :
    ∃ sel, sel ∈ [freeValet "valet-1" 2 1, freeValet "valet-2" 2 0, busyValet] ∧
      sel.canBeAssigned 600 = true ∧
      (∀ w ∈ [freeValet "valet-1" 2 1, freeValet "valet-2" 2 0, busyValet],
        w.canBeAssigned 600 = true →
        sel.assignmentSequence ≤ w.assignmentSequence) ∧
      (∀ w ∈ [freeValet "valet-1" 2 1, freeValet "valet-2" 2 0, busyValet],
        w.canBeAssigned 600 = true →
        w.assignmentSequence = sel.assignmentSequence →
        sel.todayCount ≤ w.todayCount) ∧
      (assignedOf 1000 sel).assignmentSequence = sel.assignmentSequence + 1 ∧
      (assignedOf 1000 sel).todayCount = sel.todayCount + 1 ∧
      (assignedOf 1000 sel).totalCount = sel.totalCount + 1 ∧
      (assignedOf 1000 sel).status = ValetStatus.BUSY ∧
      executeAssign 600 1000 [freeValet "valet-1" 2 1, freeValet "valet-2" 2 0,
          busyValet] =
        (.ok (assignedOf 1000 sel),
         [freeValet "valet-1" 2 1, freeValet "valet-2" 2 0, busyValet].map
           (fun w => if w.id == sel.id then assignedOf 1000 sel else w)) :=
  (assign_round_robin_fairest 600 1000
    [freeValet "valet-1" 2 1, freeValet "valet-2" 2 0, busyValet]).1
    ⟨freeValet "valet-1" 2 1, by decide, by decide⟩

/-- Source `isInShift` only looks at the shift window. -/
theorem isInShift_congr (nowMin : Nat) (v w : Valet)
    (h1 : v.shiftStart = w.shiftStart) (h2 : v.shiftEnd = w.shiftEnd) :
    v.isInShift nowMin = w.isInShift nowMin := by
  simp only [Valet.isInShift, h1, h2]

/-- One assign-then-complete round preserves the fairness invariant:
static fields untouched, everyone `FREE` again, `todayCount` tracking
`assignmentSequence`, and all sequences within a window of width 1. -/
theorem assignCompleteRound_invariant (vs0 : List Valet) (nowMin t s0 t0 : Nat)
    (hnodup : (vs0.map Valet.id).Nodup)
    (hactive : ∀ u ∈ vs0, u.isActive = true)
    (hshift : ∀ u ∈ vs0, u.isInShift nowMin = true)
    (hne : vs0 ≠ [])
    (ws : List Valet)
    (hstatic : ws.map staticPart = vs0.map staticPart)
    (hfree : ∀ w ∈ ws, w.status = ValetStatus.FREE)
    (hbal : ∀ w ∈ ws, w.assignmentSequence + t0 = w.todayCount + s0)
    (hwin : ∃ m, ∀ w ∈ ws, w.assignmentSequence = m ∨ w.assignmentSequence = m + 1) :
    ∃ ws2, assignCompleteRound nowMin t ws = some ws2 ∧
      ws2.map staticPart = vs0.map staticPart ∧
      (∀ w ∈ ws2, w.status = ValetStatus.FREE) ∧
      (∀ w ∈ ws2, w.assignmentSequence + t0 = w.todayCount + s0) ∧
      (∃ m, ∀ w ∈ ws2, w.assignmentSequence = m ∨ w.assignmentSequence = m + 1) := by
  have hmatch : ∀ w ∈ ws, ∃ u ∈ vs0, staticPart w = staticPart u := by
    intro w hw
    have hmem : staticPart w ∈ vs0.map staticPart := by
      rw [← hstatic]
      exact List.mem_map_of_mem staticPart hw
    obtain ⟨u, hu, he⟩ := List.mem_map.mp hmem
    exact ⟨u, hu, he.symm⟩
  have hids : ws.map Valet.id = vs0.map Valet.id := by
    have h := congrArg (List.map Prod.fst) hstatic
    simpa [List.map_map, staticPart, Function.comp] using h
  have hnodupws : (ws.map Valet.id).Nodup := hids ▸ hnodup
  have hinj : ∀ x ∈ ws, ∀ y ∈ ws, x.id = y.id → x = y := by
    intro x hx y hy hxy
    exact List.inj_on_of_nodup_map hnodupws hx hy hxy
  have hall : ∀ w ∈ ws, w.canBeAssigned nowMin = true := by
    intro w hw
    obtain ⟨u, hu, he⟩ := hmatch w hw
    simp only [staticPart, Prod.mk.injEq] at he
    have hsh : w.isInShift nowMin = u.isInShift nowMin :=
      isInShift_congr nowMin w u he.2.1 he.2.2.1
    simp [Valet.canBeAssigned, statusCanBeAssigned, hfree w hw,
      he.2.2.2, hactive u hu, hsh, hshift u hu]
  have hwsne : ws ≠ [] := by
    intro h
    rw [h] at hids
    have hmapnil : vs0.map Valet.id = [] := by simpa using hids.symm
    exact hne (List.map_eq_nil_iff.mp hmapnil)
  obtain ⟨v0, hv0⟩ : ∃ v0, v0 ∈ ws := by
    cases ws with
    | nil => exact absurd rfl hwsne
    | cons a l => exact ⟨a, List.mem_cons_self a l⟩
  obtain ⟨sel, hselmem, hsela, hminseq, hmintoday, heq⟩ :=
    executeAssign_spec nowMin t ws v0 hv0 (hall v0 hv0)
  have hct : (assignedOf t sel).completeTask t = (roundResultOf t sel, none) := by
    simp [Valet.completeTask, assignedOf, roundResultOf, statusAfterCompletion]
  have hround : assignCompleteRound nowMin t ws =
      some ((ws.map (fun w => if w.id == sel.id then assignedOf t sel else w)).map
        (fun x => if x.id == (roundResultOf t sel).id then roundResultOf t sel else x)) := by
    simp only [assignCompleteRound, heq, hct]
  have hcomp : (ws.map (fun w => if w.id == sel.id then assignedOf t sel else w)).map
      (fun x => if x.id == (roundResultOf t sel).id then roundResultOf t sel else x) =
      ws.map (fun w => if w.id == sel.id then roundResultOf t sel else w) := by
    rw [List.map_map]
    apply List.map_congr_left
    intro w _
    by_cases h : w.id = sel.id <;>
      simp [Function.comp, h, assignedOf, roundResultOf]
  rw [hcomp] at hround
  refine ⟨ws.map (fun w => if w.id == sel.id then roundResultOf t sel else w),
    hround, ?_, ?_, ?_, ?_⟩
  · rw [← hstatic, List.map_map]
    apply List.map_congr_left
    intro w hw
    by_cases h : w.id = sel.id
    · have hws : w = sel := hinj w hw sel hselmem h
      subst hws
      simp [Function.comp, staticPart, roundResultOf, assignedOf]
    · simp [Function.comp, h]
  · intro w2 hw2
    obtain ⟨w, hw, rfl⟩ := List.mem_map.mp hw2
    by_cases h : w.id = sel.id
    · simp [h, roundResultOf, assignedOf]
    · simp [h, hfree w hw]
  · intro w2 hw2
    obtain ⟨w, hw, rfl⟩ := List.mem_map.mp hw2
    by_cases h : w.id = sel.id
    · have hb := hbal sel hselmem
      simp [h, roundResultOf, assignedOf]
      omega
    · have hb := hbal w hw
      simp [h]
      omega
  · obtain ⟨m, hm⟩ := hwin
    by_cases hs : sel.assignmentSequence = m
    · refine ⟨m, ?_⟩
      intro w2 hw2
      obtain ⟨w, hw, rfl⟩ := List.mem_map.mp hw2
      by_cases h : w.id = sel.id
      · right
        simp [h, roundResultOf, assignedOf, hs]
      · simp [h]
        exact hm w hw
    · have hselm1 : sel.assignmentSequence = m + 1 := by
        rcases hm sel hselmem with h | h
        · exact absurd h hs
        · exact h
      have hallm1 : ∀ w ∈ ws, w.assignmentSequence = m + 1 := by
        intro w hw
        rcases hm w hw with h | h
        · have hle := hminseq w hw (hall w hw)
          omega
        · exact h
      refine ⟨m + 1, ?_⟩
      intro w2 hw2
      obtain ⟨w, hw, rfl⟩ := List.mem_map.mp hw2
      by_cases h : w.id = sel.id
      · right
        simp [h, roundResultOf, assignedOf, hselm1]
      · left
        simp [h]
        exact hallm1 w hw

/-- Iterating assign/complete rounds keeps the fairness invariant. -/
theorem runRounds_fairness (vs0 : List Valet) (s0 t0 : Nat)
    (hnodup : (vs0.map Valet.id).Nodup)
    (hactive : ∀ u ∈ vs0, u.isActive = true)
    (hne : vs0 ≠ []) :
    ∀ (times : List (Nat × Nat)) (ws : List Valet),
      (∀ p ∈ times, ∀ u ∈ vs0, u.isInShift p.1 = true) →
      ws.map staticPart = vs0.map staticPart →
      (∀ w ∈ ws, w.status = ValetStatus.FREE) →
      (∀ w ∈ ws, w.assignmentSequence + t0 = w.todayCount + s0) →
      (∃ m, ∀ w ∈ ws, w.assignmentSequence = m ∨ w.assignmentSequence = m + 1) →
      ∃ ws2, runRounds times ws = some ws2 ∧
        (∀ w ∈ ws2, w.assignmentSequence + t0 = w.todayCount + s0) ∧
        (∃ m, ∀ w ∈ ws2, w.assignmentSequence = m ∨ w.assignmentSequence = m + 1) := by
  intro times
  induction times with
  | nil =>
    intro ws _ _ _ hbal hwin
    exact ⟨ws, rfl, hbal, hwin⟩
  | cons p rest ih =>
    intro ws hshift hstatic hfree hbal hwin
    obtain ⟨ws1, hround, hstatic1, hfree1, hbal1, hwin1⟩ :=
      assignCompleteRound_invariant vs0 p.1 p.2 s0 t0 hnodup hactive
        (hshift p (List.mem_cons_self p rest)) hne ws hstatic hfree hbal hwin
    obtain ⟨ws2, hrun, hbal2, hwin2⟩ :=
      ih ws1 (fun q hq => hshift q (List.mem_cons_of_mem p hq))
        hstatic1 hfree1 hbal1 hwin1
    refine ⟨ws2, ?_, hbal2, hwin2⟩
    simp only [runRounds, hround, hrun]

/-- C6: starting from any number of `FREE`, active, in-shift valets with
equal counters, after any number of assign-then-complete rounds the
`todayCount` of any two valets differs by at most 1. -/
theorem round_robin_fairness (vs0 : List Valet) (times : List (Nat × Nat))
    (s0 t0 : Nat)
    (hne : vs0 ≠ [])
    (hnodup : (vs0.map Valet.id).Nodup)
    (hinit : ∀ v ∈ vs0, v.status = ValetStatus.FREE ∧ v.isActive = true ∧
      v.assignmentSequence = s0 ∧ v.todayCount = t0)
    (hshift : ∀ p ∈ times, ∀ v ∈ vs0, v.isInShift p.1 = true) :
    ∃ vsK, runRounds times vs0 = some vsK ∧
      ∀ a ∈ vsK, ∀ b ∈ vsK, a.todayCount ≤ b.todayCount + 1 := by
  obtain ⟨ws2, hrun, hbal2, m, hm⟩ :=
    runRounds_fairness vs0 s0 t0 hnodup (fun u hu => (hinit u hu).2.1) hne
      times vs0 hshift rfl (fun v hv => (hinit v hv).1)
      (fun v hv => by
        obtain ⟨_, _, hseq, htoday⟩ := hinit v hv
        omega)
      ⟨s0, fun v hv => Or.inl (hinit v hv).2.2.1⟩
  refine ⟨ws2, hrun, ?_⟩
  intro a ha b hb
  have h1 := hbal2 a ha
  have h2 := hbal2 b hb
  have h3 := hm a ha
  have h4 := hm b hb
  omega

/-- C6 witness: two fresh valets, three rounds. -/
theorem round_robin_fairness_witness :
    ∃ vsK, runRounds [(600, 1), (600, 2), (600, 3)]
        [freeValet "valet-1" 0 0, freeValet "valet-2" 0 0] = some vsK ∧
      ∀ a ∈ vsK, ∀ b ∈ vsK, a.todayCount ≤ b.todayCount + 1 :=
  round_robin_fairness [freeValet "valet-1" 0 0, freeValet "valet-2" 0 0]
    [(600, 1), (600, 2), (600, 3)] 0 0 (by decide) (by decide)
    (by decide) (by decide)

/-! ## Helper lemmas: decimal digit strings -/

theorem digitChar_isDigit (m : Nat) (h : m < 10) : (Nat.digitChar m).isDigit = true := by
  interval_cases m <;> decide

theorem toDigitsCore_digits (f : Nat) : ∀ (n : Nat) (acc : List Char),
    (∀ c ∈ acc, c.isDigit = true) →
    ∀ c ∈ Nat.toDigitsCore 10 f n acc, c.isDigit = true := by
  induction f with
  | zero =>
    intro n acc hacc c hc
    simp only [Nat.toDigitsCore] at hc
    exact hacc c hc
  | succ f ih =>
    intro n acc hacc c hc
    simp only [Nat.toDigitsCore] at hc
    by_cases hz : n / 10 = 0
    · rw [if_pos hz] at hc
      rcases List.mem_cons.mp hc with rfl | hmem
      · exact digitChar_isDigit _ (Nat.mod_lt _ (by norm_num))
      · exact hacc c hmem
    · rw [if_neg hz] at hc
      refine ih (n / 10) (Nat.digitChar (n % 10) :: acc) ?_ c hc
      intro d hd
      rcases List.mem_cons.mp hd with rfl | hmem
      · exact digitChar_isDigit _ (Nat.mod_lt _ (by norm_num))
      · exact hacc d hmem

/-- Every character of the decimal string of a natural number is a digit. -/
theorem repr_digits (n : Nat) : ∀ c ∈ (Nat.repr n).data, c.isDigit = true := by
  intro c hc
  exact toDigitsCore_digits (n + 1) n [] (by simp) c hc

theorem toDigitsCore_length_ge (f : Nat) : ∀ (n : Nat) (acc : List Char),
    acc.length ≤ (Nat.toDigitsCore 10 f n acc).length := by
  induction f with
  | zero => intro n acc; simp [Nat.toDigitsCore]
  | succ f ih =>
    intro n acc
    simp only [Nat.toDigitsCore]
    by_cases hz : n / 10 = 0
    · rw [if_pos hz]; simp
    · rw [if_neg hz]
      have h := ih (n / 10) (Nat.digitChar (n % 10) :: acc)
      simp only [List.length_cons] at h
      omega

theorem toDigitsCore_length_lower (e : Nat) : ∀ (f n : Nat), n < f → 10 ^ e ≤ n →
    e + 1 ≤ (Nat.toDigitsCore 10 f n []).length := by
  induction e with
  | zero =>
    intro f n hf hn
    simp only [pow_zero] at hn
    cases f with
    | zero => omega
    | succ f =>
      simp only [Nat.toDigitsCore]
      by_cases hz : n / 10 = 0
      · rw [if_pos hz]; simp
      · rw [if_neg hz]
        have h := toDigitsCore_length_ge f (n / 10) [Nat.digitChar (n % 10)]
        simp only [List.length_cons, List.length_nil] at h
        omega
  | succ e ih =>
    intro f n hf hn
    have h10 : 10 ≤ n := by
      calc (10 : Nat) = 10 ^ 1 := by norm_num
        _ ≤ 10 ^ (e + 1) := Nat.pow_le_pow_right (by norm_num) (by omega)
        _ ≤ n := hn
    cases f with
    | zero => omega
    | succ f =>
      have hz : n / 10 ≠ 0 := by
        have h1 : 1 ≤ n / 10 := (Nat.le_div_iff_mul_le (by norm_num)).mpr (by omega)
        omega
      simp only [Nat.toDigitsCore]
      rw [if_neg hz]
      have hlens := Nat.toDigitsCore_lens_eq 10 f (n / 10) (Nat.digitChar (n % 10)) []
      have hrec : e + 1 ≤ (Nat.toDigitsCore 10 f (n / 10) []).length := by
        refine ih f (n / 10) ?_ ?_
        · have h1 : n / 10 < n := Nat.div_lt_self (by omega) (by norm_num)
          omega
        · rw [Nat.le_div_iff_mul_le (by norm_num)]
          calc 10 ^ e * 10 = 10 ^ (e + 1) := by ring
            _ ≤ n := hn
      omega

/-- The decimal string of `n ≥ 10^e` has more than `e` characters. -/
theorem repr_length_lower (n e : Nat) (h : 10 ^ e ≤ n) :
    e + 1 ≤ (Nat.repr n).length :=
  toDigitsCore_length_lower e (n + 1) n (Nat.lt_succ_self n) h

/-- C7 (amended): for a realistic clock (`Date.now() ≥ 10^5`, so its
decimal string has at least 6 digits), every generated token is `VLT-`
followed by exactly 8 digit characters — the 13-character template
`VLT-` + 6 + 3 digits is truncated by `.slice(0, 12)`. -/
theorem generateToken_format (nowMs rand : Nat) (h : 100000 ≤ nowMs) :
    ∃ digits : List Char,
      generateToken nowMs rand = ⟨'V' :: 'L' :: 'T' :: '-' :: digits⟩ ∧
      digits.length = 8 ∧ ∀ c ∈ digits, c.isDigit = true := by
  have hslen : 6 ≤ (Nat.repr nowMs).data.length :=
    repr_length_lower nowMs 5 (by simpa using h)
  have htdlen : ((Nat.repr nowMs).data.drop
      ((Nat.repr nowMs).data.length - 6)).length = 6 := by
    rw [List.length_drop]
    omega
  have hrlen : (Nat.repr (rand % 1000)).data.length ≤ 3 := by
    have hlt : rand % 1000 < 10 ^ 3 := by
      have hm := Nat.mod_lt rand (show 0 < 1000 by norm_num)
      simpa using hm
    exact Nat.repr_length (rand % 1000) 3 (by norm_num) hlt
  have hrdlen : (List.replicate (3 - (Nat.repr (rand % 1000)).data.length) '0' ++
      (Nat.repr (rand % 1000)).data).length = 3 := by
    rw [List.length_append, List.length_replicate]
    omega
  refine ⟨(((Nat.repr nowMs).data.drop ((Nat.repr nowMs).data.length - 6)) ++
      (List.replicate (3 - (Nat.repr (rand % 1000)).data.length) '0' ++
        (Nat.repr (rand % 1000)).data)).take 8, ?_, ?_, ?_⟩
  · show (⟨("VLT-".data ++
        ((Nat.repr nowMs).data.drop ((Nat.repr nowMs).data.length - 6)) ++
        (List.replicate (3 - (Nat.repr (rand % 1000)).data.length) '0' ++
          (Nat.repr (rand % 1000)).data)).take 12⟩ : String) = _
    congr 1
  · rw [List.length_take, List.length_append, htdlen, hrdlen]
    norm_num
  · intro c hc
    have hc2 := List.mem_of_mem_take hc
    rcases List.mem_append.mp hc2 with hmem | hmem
    · exact repr_digits nowMs c (List.mem_of_mem_drop hmem)
    · rcases List.mem_append.mp hmem with h0 | hr2
      · rw [List.eq_of_mem_replicate h0]
        decide
      · exact repr_digits (rand % 1000) c hr2

/-- C7 witness: the timestamp 1700000000000 with random draw 123. -/
theorem generateToken_format_witness :
    ∃ digits : List Char,
      generateToken 1700000000000 123 = ⟨'V' :: 'L' :: 'T' :: '-' :: digits⟩ ∧
      digits.length = 8 ∧ ∀ c ∈ digits, c.isDigit = true :=
  generateToken_format 1700000000000 123 (by norm_num)

/-- C7 counterexample: the token generated at timestamp 1700000000000 with
random draw 123 is `VLT-00000012` — the `.slice(0, 12)` truncation leaves
only 8 digits, so it does not have the claimed `VLT-` + 9-digit format. -/
theorem generateToken_nine_digit_counterexample :
    generateToken 1700000000000 123 = "VLT-00000012" ∧
    isVltNineDigitToken (generateToken 1700000000000 123) = false := by
  decide

/-- C9 (amended): the phone validation runs the 10-digit regex on the raw
digit string *without* stripping the country code (stripping happens only
in `normalizePhoneNumber`, after validation): every valid 10-digit mobile
number (first digit 6–9) is accepted bare but rejected with a `91` or
`+91` prefix, and validation passes only when the raw digit string matches
the regex. -/
theorem phone_validation_no_country_strip (p : String)
    (hvalid : phoneRegexTest p = true) :
    phoneRegexTest (jsDigits p) = true ∧
    phoneRegexTest (jsDigits ⟨'9' :: '1' :: p.data⟩) = false ∧
    phoneRegexTest (jsDigits ⟨'+' :: '9' :: '1' :: p.data⟩) = false ∧
    (∀ dto : CreateVehicleEntryDTO, validateInput dto = none →
      phoneRegexTest (jsDigits dto.customerPhone) = true) := by
  cases hp : p.data with
  | nil =>
    simp only [phoneRegexTest, hp] at hvalid
    exact absurd hvalid (by decide)
  | cons c rest =>
    simp only [phoneRegexTest, hp, Bool.and_eq_true, decide_eq_true_eq,
      beq_iff_eq, List.all_eq_true] at hvalid
    obtain ⟨⟨⟨h6, h9⟩, hrest⟩, hall⟩ := hvalid
    have hcdigit : c.isDigit = true := by
      have h0 : '0' ≤ c := le_trans (by decide) h6
      simp only [Char.isDigit, Bool.and_eq_true, decide_eq_true_eq]
      exact ⟨h0, h9⟩
    have hdigits : ∀ d ∈ p.data, d.isDigit = true := by
      intro d hd
      rw [hp] at hd
      rcases List.mem_cons.mp hd with rfl | hmem
      · exact hcdigit
      · exact hall d hmem
    have hfilter : (c :: rest).filter Char.isDigit = c :: rest := by
      rw [← hp]
      exact List.filter_eq_self.mpr hdigits
    refine ⟨?_, ?_, ?_, ?_⟩
    · have hdata : (jsDigits p).data = c :: rest := by
        show p.data.filter Char.isDigit = c :: rest
        rw [hp, hfilter]
      simp [phoneRegexTest, hdata, h6, h9, hrest]
      exact hall
    · have hdata : (jsDigits ⟨'9' :: '1' :: c :: rest⟩).data =
          '9' :: '1' :: c :: rest := by
        show ('9' :: '1' :: c :: rest).filter Char.isDigit = '9' :: '1' :: c :: rest
        simp [hfilter]
      have hL : ('1' :: c :: rest).length = 11 := by simp [hrest]
      simp [phoneRegexTest, hdata, hL]
    · have hdata : (jsDigits ⟨'+' :: '9' :: '1' :: c :: rest⟩).data =
          '9' :: '1' :: c :: rest := by
        show ('+' :: '9' :: '1' :: c :: rest).filter Char.isDigit =
          '9' :: '1' :: c :: rest
        simp [hfilter]
      have hL : ('1' :: c :: rest).length = 11 := by simp [hrest]
      simp [phoneRegexTest, hdata, hL]
    · intro dto hnone
      by_contra hne2
      simp only [validateInput] at hnone
      split_ifs at hnone <;> simp_all

/-- C9 witness: the valid mobile number `9876543210`. -/
theorem phone_validation_no_country_strip_witness :
    phoneRegexTest (jsDigits "9876543210") = true ∧
    phoneRegexTest (jsDigits ⟨'9' :: '1' :: "9876543210".data⟩) = false ∧
    phoneRegexTest (jsDigits ⟨'+' :: '9' :: '1' :: "9876543210".data⟩) = false ∧
    (∀ dto : CreateVehicleEntryDTO, validateInput dto = none →
      phoneRegexTest (jsDigits dto.customerPhone) = true) :=
  phone_validation_no_country_strip "9876543210" (by decide)

/-- C9 counterexample: `919876543210` is a valid 10-digit mobile carrying
the `91` country code — the code's own `normalizePhoneNumber` strips the
prefix down to an accepted number — yet `validateInput` rejects it, where
the claim says `createEntry` accepts it. -/
theorem phone_country_code_rejected_counterexample :
    normalizePhoneNumber "919876543210" = "9876543210" ∧
    phoneRegexTest "9876543210" = true ∧
    validateInput dtoPrefixedPhone = some .invalidPhoneNumber := by
  decide

/-- C5: duplicate-entry rejection.  With valid input, `createEntry` fails
with the duplicate-entry conflict error and writes nothing whenever some
record for the normalized plate is in a state other than `DELIVERED` or
`CLOSED`; once every record for that plate is `DELIVERED` or `CLOSED` (and
a zone and a valet are available), `createEntry` for the same plate
succeeds. -/
theorem createEntry_duplicate_rejection (nowMs nowMin tokRand slotRand : Nat)
    (uuid : String) (dto : CreateVehicleEntryDTO) (st : SystemState)
    (hval : validateInput dto = none) :
    ((∃ ex ∈ st.vehicles,
        ex.vehicleNumber = normalizeVehicleNumber dto.vehicleNumber ∧
        ex.state ≠ DELIVERED ∧ ex.state ≠ CLOSED) →
      ∃ ex : Vehicle, createEntry nowMs nowMin tokRand slotRand uuid dto st =
        (.error (.duplicateEntry (normalizeVehicleNumber dto.vehicleNumber)
          ex.token ex.state), st)) ∧
    ((∀ ex ∈ st.vehicles,
        ex.vehicleNumber = normalizeVehicleNumber dto.vehicleNumber →
        ex.state = DELIVERED ∨ ex.state = CLOSED) →
      (∃ z, findAvailableZone st.zones = some z) →
      (∃ v ∈ st.valets, v.canBeAssigned nowMin = true) →
      ∃ veh st1,
        createEntry nowMs nowMin tokRand slotRand uuid dto st = (.ok veh, st1) ∧
        veh.vehicleNumber = normalizeVehicleNumber dto.vehicleNumber ∧
        veh.state = PARKING) := by
  constructor
  · rintro ⟨ex, hex, hplate, hnd, hnc⟩
    have hsome : (findActiveByVehicleNumber st.vehicles
        (normalizeVehicleNumber dto.vehicleNumber)).isSome := by
      rw [findActiveByVehicleNumber, List.find?_isSome]
      refine ⟨ex, hex, ?_⟩
      simp [hplate, hnd, hnc]
    obtain ⟨found, hfound⟩ := Option.isSome_iff_exists.mp hsome
    refine ⟨found, ?_⟩
    simp only [createEntry, hval, hfound]
  · intro hclosed hzone hvalet
    obtain ⟨z, hz⟩ := hzone
    obtain ⟨v0, hv0, hv0a⟩ := hvalet
    have hnone : findActiveByVehicleNumber st.vehicles
        (normalizeVehicleNumber dto.vehicleNumber) = none := by
      rw [findActiveByVehicleNumber, List.find?_eq_none]
      intro x hx
      by_cases hpl : x.vehicleNumber = normalizeVehicleNumber dto.vehicleNumber
      · rcases hclosed x hx hpl with h | h <;> simp [hpl, h]
      · simp [hpl]
    obtain ⟨sel, _, _, _, _, heq⟩ :=
      executeAssign_spec nowMin nowMs st.valets v0 hv0 hv0a
    simp only [createEntry, hval, hnone, hz, heq]
    exact ⟨_, _, rfl, rfl, rfl⟩

unseal List.merge List.mergeSort in
/-- C5 witness: plate `KL07AB1234` is rejected while a `PARKED` record for
it exists, and accepted again once that record is `CLOSED`. -/
theorem createEntry_duplicate_rejection_witness :
    (∃ ex : Vehicle, createEntry 1700000000000 600 123 41 "veh-u1" dtoA dupState =
      (.error (.duplicateEntry (normalizeVehicleNumber dtoA.vehicleNumber)
        ex.token ex.state), dupState)) ∧
    (∃ veh st1,
      createEntry 1700000000000 600 123 41 "veh-u1" dtoA closedState =
        (.ok veh, st1) ∧
      veh.vehicleNumber = normalizeVehicleNumber dtoA.vehicleNumber ∧
      veh.state = PARKING) :=
  ⟨(createEntry_duplicate_rejection 1700000000000 600 123 41 "veh-u1" dtoA
      dupState (by decide)).1
      ⟨parkedVehicle, by decide, by decide, by decide, by decide⟩,
   (createEntry_duplicate_rejection 1700000000000 600 123 41 "veh-u1" dtoA
      closedState (by decide)).2 (by decide) ⟨zoneA, by decide⟩
      ⟨freeValet "valet-1" 0 0, by decide, by decide⟩⟩

unseal List.merge List.mergeSort in
/-- C8: the code violates the no-reused-slot-label rule.  Two entries into
zone `A` whose slot random draws are both 41 produce two distinct,
concurrently active (`PARKING`) vehicles in the same zone carrying the
same slot label `42`: `allocateSlot` is a bare random draw that never
consults the occupied labels. -/
theorem slot_label_reuse_bug :
    entryStep2.2.vehicles.map Vehicle.slot = ["42", "42"] ∧
    entryStep2.2.vehicles.map Vehicle.zone = ["A", "A"] ∧
    entryStep2.2.vehicles.map Vehicle.id = ["veh-u1", "veh-u2"] ∧
    (∀ v ∈ entryStep2.2.vehicles, v.state = PARKING) := by
  decide

/-- C10 witness: the concrete busy valet, with `takeBreak` as the probed
operation. -/
theorem busy_valet_only_completes_witness :
    (∀ t, busyValet.takeBreak t = (busyValet, some .busyCannotTakeBreak)) ∧
    (∀ t, busyValet.goOffDuty t = (busyValet, some .busyCannotGoOffDuty)) ∧
    ((applyValetOp busyValet (ValetOp.takeBreak 5)).1.status = ValetStatus.BUSY ∨
      ∃ t, ValetOp.takeBreak 5 = ValetOp.complete t ∧
        applyValetOp busyValet (ValetOp.takeBreak 5) = ({ busyValet with
          status := ValetStatus.FREE, updatedAt := t }, none)) :=
  busy_valet_only_completes busyValet (ValetOp.takeBreak 5) (by decide)

end ValetParking
